import Mathlib

/-!
Verification development for the cross-venue spread monitor
(`arb` package: poller, rolling signals, AR(1) reversion estimator,
rate limiter, panel server endpoints).

Numeric embedding: Python floats are modelled as exact rationals (`ℚ`)
for the algebraic computations and as real numbers (`ℝ`) where the code
applies `math.sqrt` / `math.log`.  Integers are `ℤ`/`ℕ`.  Optional
(`None`-able) values are `Option`.
-/

namespace Arb

/-! ### Rolling z-score (`arb/signal/zscore.py`) -/

/-- Arithmetic mean of a list, `sum(buf) / n` (0 on the empty list,
which the code never hits because `update` appends first). -/
def listMean (l : List ℚ) : ℚ := l.sum / l.length

/-- Unbiased sample variance `sum((x - mean) ** 2 for x in buf) / (n - 1)`. -/
def sampleVar (l : List ℚ) : ℚ :=
  ((l.map fun x => (x - listMean l) ^ 2).sum) / ((l.length : ℚ) - 1)

/-- State of `RollingZScore`: the fixed capacity and the deque contents
(oldest first), mirroring `self.window` and `self.buf`. -/
structure RollingZScore where
  window : ℕ
  buf : List ℚ

/-- The effect of `deque(maxlen=window).append(value)`: append on the
right, dropping from the left whatever exceeds the capacity. -/
def dequeAppend (window : ℕ) (buf : List ℚ) (x : ℚ) : List ℚ :=
  let b := buf ++ [x]
  if window < b.length then b.drop (b.length - window) else b

/-- Result tuple of `RollingZScore.update` together with the mutated
state: `(z, mean, std)` plus the new buffer. -/
structure ZOut where
  state : RollingZScore
  z : ℝ
  meanOut : ℚ
  stdOut : ℝ

/-- `RollingZScore.update(value)`: append, recompute mean; sample std
`sqrt(max(var, 0.0))` when `n > 1` else `0.0`; `z = (value - mean)/std`
when `std > 0` else `0.0`. -/
noncomputable def RollingZScore.update (s : RollingZScore) (x : ℚ) : ZOut :=
  let buf := dequeAppend s.window s.buf x
  let n := buf.length
  let m := listMean buf
  let std : ℝ := if 1 < n then Real.sqrt (max ((sampleVar buf : ℚ) : ℝ) 0) else 0
  let z : ℝ := if 0 < std then ((x : ℝ) - (m : ℝ)) / std else 0
  { state := { window := s.window, buf := buf }, z := z, meanOut := m, stdOut := std }

/-! ### Poller tick core (`arb/runner_reminder.py`, `poll_pair_with_store`) -/

/-- The action cascade of lines 109–115: enter short when
`zscore >= enter_z`, enter long when `zscore <= -enter_z`, exit when
`abs(zscore) <= exit_z`, otherwise hold. -/
noncomputable def decideAction (zscore enterZ exitZ : ℝ) : String :=
  if zscore ≥ enterZ then "enter_short_A_long_B"
  else if zscore ≤ -enterZ then "enter_long_A_short_B"
  else if |zscore| ≤ exitZ then "exit"
  else "hold"

/-- Raw per-leg observation feeding one tick: mid prices, completion
timestamps `ts_a`/`ts_b` and fetch durations `dur_a`/`dur_b`. -/
structure TickObs where
  priceA : ℚ
  priceB : ℚ
  tsA : ℤ
  tsB : ℤ
  durA : ℤ
  durB : ℤ

/-- The persisted per-tick fields relevant to the signal/staleness
invariants, as assembled by `poll_pair_with_store`. -/
structure TickSample where
  state : RollingZScore
  spread : ℚ
  z : ℝ
  meanOut : ℚ
  stdOut : ℝ
  tsMs : ℤ
  ageAMs : ℤ
  ageBMs : ℤ
  skewMs : ℤ
  latencyMs : ℤ
  stale : ℕ
  action : String

/-- One iteration of the signal/staleness core of
`poll_pair_with_store` (lines 98–119): spread, rolling z-score update,
timestamps, ages, skew, the action cascade, then the stale flag and its
override of the action. -/
noncomputable def pollTick (s : RollingZScore) (obs : TickObs)
    (enterZ exitZ : ℝ) (staleMsTh skewMsTh : ℤ) : TickSample :=
  let spread := obs.priceA - obs.priceB
  let r := s.update spread
  let ts := max obs.tsA obs.tsB
  let ageA := ts - obs.tsA
  let ageB := ts - obs.tsB
  let skew := |obs.tsA - obs.tsB|
  let latency := max obs.durA obs.durB
  let actionRaw := decideAction r.z enterZ exitZ
  let stale : ℕ := if ageA > staleMsTh ∨ ageB > staleMsTh ∨ skew > skewMsTh then 1 else 0
  let action := if stale ≠ 0 then "hold" else actionRaw
  { state := r.state, spread := spread, z := r.z, meanOut := r.meanOut,
    stdOut := r.stdOut, tsMs := ts, ageAMs := ageA, ageBMs := ageB,
    skewMs := skew, latencyMs := latency, stale := stale, action := action }

/-! ### AR(1) reversion estimator (`estimate_reversion_times`) -/

/-- OLS numerator `sum((xi - mean_x) * (yi - mean_y))` over
`x = series[:-1]`, `y = series[1:]`. -/
def olsNum (s : List ℚ) : ℚ :=
  ((s.dropLast.zip s.tail).map fun p =>
    (p.1 - listMean s.dropLast) * (p.2 - listMean s.tail)).sum

/-- OLS denominator `sum((xi - mean_x) ** 2)` over `x = series[:-1]`. -/
def olsDen (s : List ℚ) : ℚ :=
  (s.dropLast.map fun x => (x - listMean s.dropLast) ^ 2).sum

/-- The AR(1) coefficient `phi = num / den`. -/
def phiOf (s : List ℚ) : ℚ := olsNum s / olsDen s

/-- `estimate_reversion_times(z, current_z, exit_z, poll_ms)` on the
buffer `series = list(z.buf)`: guards (`n < 10`, `den == 0`,
`phi <= 0 or phi >= 0.9999`) return `(None, None)`; otherwise the
half-life in seconds and the time to reach the exit threshold, where
`k = log(2) / half_life_s` and `t_exit_s = log(|z| / exit_z) / k`. -/
noncomputable def estimate_reversion_times (buf : List ℚ)
    (currentZ exitZ : ℝ) (pollMs : ℤ) : Option ℝ × Option ℝ :=
  if buf.length < 10 then (none, none)
  else if olsDen buf = 0 then (none, none)
  else
    let phi := phiOf buf
    if phi ≤ 0 ∨ 9999 / 10000 ≤ phi then (none, none)
    else
      let halfLifeSamples : ℝ := Real.log 2 / (-Real.log (phi : ℝ))
      let halfLifeS : ℝ := halfLifeSamples * ((pollMs : ℝ) / 1000)
      let tExitS : ℝ :=
        if exitZ ≤ 0 ∨ |currentZ| ≤ exitZ then 0
        else Real.log (|currentZ| / exitZ) / (Real.log 2 / halfLifeS)
      (some halfLifeS, some tExitS)

/-! ### Funding advisory (`poll_pair_with_store`, lines 255–278) -/

/-- The first advisory message the runner emits, verbatim ("expected to
converge before the next funding; consider avoiding the funding fee"). -/
def adviceBeforeFunding : String := "预计在下一次资金费率前收敛，可考虑规避资金费率影响"

/-- The second advisory message, verbatim ("expected to span the next
funding; evaluate the net funding gain/cost before deciding"). -/
def adviceSpanFunding : String := "预计跨越下一次资金费率，可评估净资金费率收益/成本后决定"

/-- Python's `int(c / 1000)`: division truncated toward zero.  For a
non-negative dividend the Euclidean `/` on `ℤ` is that truncation. -/
def truncDiv1000 (c : ℤ) : ℤ := if 0 ≤ c then c / 1000 else -(-c / 1000)

/-- The `net_rate` selection: requires both funding rates and one of the
two enter actions; short leg's rate minus the long leg's. -/
def netRateOf (action : String) (frA frB : Option ℚ) : Option ℚ :=
  match frA, frB with
  | some a, some b =>
    if action = "enter_short_A_long_B" then some (a - b)
    else if action = "enter_long_A_short_B" then some (b - a)
    else none
  | _, _ => none

/-- The advisory fields of the ingest payload. -/
structure AdvisoryOut where
  advice : Option String
  netFundingCycleUsd : Option ℚ
  expectFundingNextUsd : Option ℚ

/-- The funding-and-advisory step: guarded by Python truthiness of
`countdown_ms` and `t_exit_s` (absent or zero both skip), then by
`net_rate is not None`; `time_to_funding_s = max(0, int(countdown_ms /
1000))`; advice compares `t_exit_s` against it; the expected next-cycle
funding is paid only when the position likely spans the funding. -/
noncomputable def fundingAdvisory (action : String) (frA frB : Option ℚ)
    (countdownMs : Option ℤ) (tExitS : Option ℝ) (notionalUsd : ℚ) : AdvisoryOut :=
  match countdownMs, tExitS with
  | some c, some t =>
    if c = 0 ∨ t = 0 then { advice := none, netFundingCycleUsd := none, expectFundingNextUsd := none }
    else
      match netRateOf action frA frB with
      | some nr =>
        let timeToFundingS : ℤ := max 0 (truncDiv1000 c)
        let advice := if t < (timeToFundingS : ℝ) then adviceBeforeFunding else adviceSpanFunding
        let cyc := notionalUsd * nr
        { advice := some advice, netFundingCycleUsd := some cyc,
          expectFundingNextUsd := some (if (timeToFundingS : ℝ) ≤ t then cyc else 0) }
      | none => { advice := none, netFundingCycleUsd := none, expectFundingNextUsd := none }
  | _, _ => { advice := none, netFundingCycleUsd := none, expectFundingNextUsd := none }

/-! ### Bin statistics (`arb/panel/server.py`, `api_stats_bins`) -/

/-- Mathematical floor of a rational (Euclidean integer division of the
numerator by the positive denominator). -/
def qfloor (q : ℚ) : ℤ := q.num / (q.den : ℤ)

/-- Mathematical ceiling of a rational. -/
def qceil (q : ℚ) : ℤ := -qfloor (-q)

/-- Python 3's `round` on an exactly-representable value: nearest
integer, ties to even. -/
def pyRound (q : ℚ) : ℤ :=
  let f := qfloor q
  let r := q - (f : ℚ)
  if r < 1 / 2 then f
  else if 1 / 2 < r then f + 1
  else if f % 2 = 0 then f else f + 1

/-- The index `k = int(max(0, min(cnt - 1, round(p * (cnt - 1)))))` of
the inner `pct` helper. -/
def pctIndex (p : ℚ) (cnt : ℕ) : ℤ :=
  max 0 (min ((cnt : ℤ) - 1) (pyRound (p * ((cnt : ℚ) - 1))))

/-- The inner `pct(p)` of `api_stats_bins`: `None` on an empty list,
else the sorted sample at the clamped rounded index. -/
def pct (p : ℚ) (sorted : List ℚ) : Option ℚ :=
  if sorted.length = 0 then none
  else sorted.get? (pctIndex p sorted.length).toNat

/-- Insert into an ascending list, keeping it ascending. -/
def insertAsc (x : ℚ) : List ℚ → List ℚ
  | [] => [x]
  | y :: ys => if x ≤ y then x :: y :: ys else y :: insertAsc x ys

/-- Ascending sort (`samples.sort()`). -/
def sortAsc : List ℚ → List ℚ
  | [] => []
  | x :: xs => insertAsc x (sortAsc xs)

/-- Linear scan for the first element at or below the exit threshold,
carrying its absolute index. -/
def scanExit (exitZ : ℚ) : List ℚ → ℕ → Option ℕ
  | [], _ => none
  | a :: rest, j => if a ≤ exitZ then some j else scanExit exitZ rest (j + 1)

/-- The forward scan `while j < n: if absz[j] <= exit_z: ...` — the
first index `j ≥ i` whose `|z|` is at or below the exit threshold. -/
def findExitFrom (absz : List ℚ) (exitZ : ℚ) (i : ℕ) : Option ℕ :=
  scanExit exitZ (absz.drop i) i

/-- The per-bin entry/exit scan of `api_stats_bins` (the `while i < n`
loop): detect an entry when `absz[i-1] < lo ≤ absz[i] (< hi)`, scan
forward for the exit, record the duration in seconds and the
before-funding indicator, and resume at the exit index (or `i + 1` when
no exit exists).  The loop does not always advance (`i = j` can leave
`i` unchanged when the entry sample is already at or below `exit_z`),
so the recursion carries fuel; `none` models the non-terminating
loop. -/
def binScanAux (absz : List ℚ) (tms : List ℤ) (cds : List (Option ℤ))
    (lo : ℚ) (hi : Option ℚ) (exitZ : ℚ) : ℕ → ℕ → Option (List ℚ × List ℚ)
  | 0, _ => none
  | fuel + 1, i =>
    if i < absz.length then
      let prev := absz.getD (i - 1) 0
      let cur := absz.getD i 0
      let entry : Bool := decide (prev < lo) && decide (lo ≤ cur) &&
        (match hi with | none => true | some h2 => decide (cur < h2))
      if entry then
        match findExitFrom absz exitZ i with
        | some j =>
          let dtMs : ℤ := tms.getD j 0 - tms.getD i 0
          let cEntry : List ℚ := match cds.getD i none with
            | some c => [if (dtMs : ℚ) ≤ (c : ℚ) then 1 else 0]
            | none => []
          match binScanAux absz tms cds lo hi exitZ fuel j with
          | some r => some ((dtMs : ℚ) / 1000 :: r.1, cEntry ++ r.2)
          | none => none
        | none => binScanAux absz tms cds lo hi exitZ fuel (i + 1)
      else binScanAux absz tms cds lo hi exitZ fuel (i + 1)
    else some ([], [])

/-- One element of the `stats` array of `GET /api/stats/bins`. -/
structure BinStat where
  samples : ℕ
  p25 : Option ℚ
  median : Option ℚ
  p75 : Option ℚ
  p90 : Option ℚ
  probExitBeforeFunding : Option ℚ

/-- The stats emitted for one bin, given the time-filtered ascending
series `absz`, `tms`, `countdown`.  The scan advances at least one
index per terminating iteration, so `2n + 2` fuel is beyond any
terminating run's needs. -/
def binStat (absz : List ℚ) (tms : List ℤ) (cds : List (Option ℤ))
    (lo : ℚ) (hi : Option ℚ) (exitZ : ℚ) : Option BinStat :=
  (binScanAux absz tms cds lo hi exitZ (2 * absz.length + 2) 1).map fun r =>
    let sorted := sortAsc r.1
    { samples := sorted.length
      p25 := pct (1 / 4) sorted
      median := pct (1 / 2) sorted
      p75 := pct (3 / 4) sorted
      p90 := pct (9 / 10) sorted
      probExitBeforeFunding :=
        if r.2.length ≠ 0 then some (r.2.sum / r.2.length) else none }

/-- Modelled from the spec: the nearest-rank percentile the
specification describes — the element at 1-based rank `⌈p·n⌉` of the
ascending-sorted durations (`None` on the empty list).  Kept separate
from `pct` (the code's formula) for the refinement comparison. -/
def nearestRankPercentile (p : ℚ) (sorted : List ℚ) : Option ℚ :=
  if sorted.length = 0 then none
  else sorted.get? ((qceil (p * sorted.length)).toNat - 1)

/-! ### Ingestion endpoint (`arb/panel/server.py`, `ingest_spread`) -/

/-- JSON scalar values as they matter to the ingest path. -/
inductive JVal where
  | num (q : ℚ)
  | str (s : String)
deriving DecidableEq

/-- Dictionary lookup `payload[k]` / `k in payload` on a JSON object. -/
def jlookup (payload : List (String × JVal)) (k : String) : Option JVal :=
  (payload.find? fun kv => kv.1 == k).map (·.2)

/-- The `required` key list of `ingest_spread`. -/
def requiredKeys : List String :=
  ["pair", "ts_ms", "price_a", "price_b", "spread", "z", "mean", "std"]

/-- Python `float(x)` on a JSON value; numeric strings are not
modelled, so a string fails (surfacing as a 5xx, never a 400). -/
def asNum : JVal → Option ℚ
  | .num q => some q
  | .str _ => none

/-- Python `int(x)` on a JSON value: truncation toward zero. -/
def asInt : JVal → Option ℤ
  | .num q => some (if 0 ≤ q then qfloor q else -qfloor (-q))
  | .str _ => none

/-- The converted core columns a persisted spread row carries (the
optional enrichment columns pass through `payload.get` unchanged and
are not modelled individually). -/
structure StoredSpread where
  pair : JVal
  tsMs : ℤ
  priceA : ℚ
  priceB : ℚ
  spread : ℚ
  z : ℚ
  meanV : ℚ
  stdV : ℚ
deriving DecidableEq

/-- Server-side state the ingest path touches: the append-only spreads
table and the per-pair WebSocket subscriber sets (subscribers named by
abstract ids). -/
structure PanelState where
  stored : List StoredSpread
  subscribers : JVal → List ℕ

/-- Successful ingest outcome: the new state, the broadcast message,
its recipients, and the HTTP response body. -/
structure IngestOk where
  state : PanelState
  message : List (String × JVal)
  recipients : List ℕ
  response : String

/-- `POST /api/ingest/spread`: 400 on the first missing required key;
otherwise convert the core fields, persist via `insert_spread`, then
broadcast the full payload to the pair's current subscribers and return
`ok`.  A present-but-unconvertible field raises past the handler (5xx,
modelled as 500). -/
def ingest_spread (st : PanelState) (payload : List (String × JVal)) :
    Except ℕ IngestOk :=
  if requiredKeys.any fun k => (jlookup payload k).isNone then .error 400
  else
    match jlookup payload "pair", (jlookup payload "ts_ms").bind asInt,
        (jlookup payload "price_a").bind asNum, (jlookup payload "price_b").bind asNum,
        (jlookup payload "spread").bind asNum, (jlookup payload "z").bind asNum,
        (jlookup payload "mean").bind asNum, (jlookup payload "std").bind asNum with
    | some pr, some ts, some pa, some pb, some sp, some zv, some mv, some sv =>
      let row : StoredSpread :=
        { pair := pr, tsMs := ts, priceA := pa, priceB := pb,
          spread := sp, z := zv, meanV := mv, stdV := sv }
      .ok { state := { stored := st.stored ++ [row], subscribers := st.subscribers },
            message := payload,
            recipients := st.subscribers pr,
            response := "ok" }
    | _, _, _, _, _, _, _, _ => .error 500

/-! ### Execution simulator (`_avg_exec_price`, `api_simulate`) -/

/-- The book walk of `_avg_exec_price`: stop when `remaining <= 0`,
else `take = min(remaining, qty)`, accumulating quote total and filled
base. -/
def walkBook : List (ℚ × ℚ) → ℚ → ℚ → ℚ → ℚ × ℚ
  | [], _, totalQuote, filled => (totalQuote, filled)
  | level :: rest, remaining, totalQuote, filled =>
    if remaining ≤ 0 then (totalQuote, filled)
    else
      let take := min remaining level.2
      walkBook rest (remaining - take) (totalQuote + take * level.1) (filled + take)

/-- `_avg_exec_price(levels, base_qty, side)`: returns `(avg, filled)`
with `avg = total_quote / filled` when anything filled, else `0.0`
(the `side` argument does not affect the traversal order). -/
def avg_exec_price (levels : List (ℚ × ℚ)) (baseQty : ℚ) : ℚ × ℚ :=
  let r := walkBook levels baseQty 0 0
  (if 0 < r.2 then r.1 / r.2 else 0, r.2)

/-- Both sides of one venue's book, index 0 best. -/
structure OrderBook where
  bids : List (ℚ × ℚ)
  asks : List (ℚ × ℚ)

/-- Level selection of lines 376–377: asks for a buy, bids for a sell. -/
def sideLevels (book : OrderBook) (side : String) : List (ℚ × ℚ) :=
  if side = "buy" then book.asks else book.bids

/-- The response body of `GET /api/simulate`. -/
structure SimResult where
  midA : ℚ
  midB : ℚ
  avgA : ℚ
  avgB : ℚ
  slipAPct : ℚ
  slipBPct : ℚ
  slipAUsd : ℚ
  slipBUsd : ℚ
  feeAUsd : ℚ
  feeBUsd : ℚ
  totalCostUsd : ℚ
  filledBaseA : ℚ
  filledBaseB : ℚ
deriving DecidableEq

/-- The cost computation of `api_simulate` once the mid prices, books
and taker fees are fetched: pattern → sides, `base_qty = notional /
mid`, the greedy walk, the guarded slippage fractions, and the USD
cost lines.  An unknown pattern is the endpoint's 400. -/
def api_simulate (midA midB : ℚ) (bookA bookB : OrderBook)
    (takerA takerB notionalUsd : ℚ) (pattern : String) : Except ℕ SimResult :=
  let sides : Option (String × String) :=
    if pattern = "enter_short_A_long_B" then some ("sell", "buy")
    else if pattern = "enter_long_A_short_B" then some ("buy", "sell")
    else none
  match sides with
  | none => .error 400
  | some sd =>
    let ra := avg_exec_price (sideLevels bookA sd.1) (notionalUsd / midA)
    let rb := avg_exec_price (sideLevels bookB sd.2) (notionalUsd / midB)
    let slipAPct := if 0 < ra.1 then |ra.1 - midA| / midA else 0
    let slipBPct := if 0 < rb.1 then |rb.1 - midB| / midB else 0
    let slipAUsd := slipAPct * notionalUsd
    let slipBUsd := slipBPct * notionalUsd
    let feeAUsd := takerA * notionalUsd
    let feeBUsd := takerB * notionalUsd
    .ok { midA := midA, midB := midB, avgA := ra.1, avgB := rb.1,
          slipAPct := slipAPct, slipBPct := slipBPct,
          slipAUsd := slipAUsd, slipBUsd := slipBUsd,
          feeAUsd := feeAUsd, feeBUsd := feeBUsd,
          totalCostUsd := slipAUsd + slipBUsd + feeAUsd + feeBUsd,
          filledBaseA := ra.2, filledBaseB := rb.2 }

/-! ### Rate limiter (`arb/rate_limiter.py`) -/

/-- `TokenBucket` state: `capacity`, `refill_rate`, `_tokens`, `_last`
(monotonic seconds). -/
structure TokenBucket where
  capacity : ℤ
  refillRate : ℚ
  tokens : ℚ
  last : ℚ
deriving DecidableEq

/-- `TokenBucket.__init__`: tokens start at `float(capacity)`. -/
def TokenBucket.init (capacity : ℤ) (refillRate : ℚ) (now : ℚ) : TokenBucket :=
  { capacity := capacity, refillRate := refillRate,
    tokens := (capacity : ℚ), last := now }

/-- The linear refill, saturated at capacity:
`tokens = min(capacity, tokens + elapsed * refill_rate)`. -/
def refillAt (b : TokenBucket) (now : ℚ) : TokenBucket :=
  { b with
      tokens := min (b.capacity : ℚ) (b.tokens + (now - b.last) * b.refillRate),
      last := now }

/-- The wait loop of `TokenBucket.consume`: while tokens are short,
sleep and refill at the next wake time; once enough tokens exist,
deduct.  `wakes` is the (monotone) sequence of wake times the sleeping
caller observes; `none` means the caller is still waiting after all of
them. -/
def consumeLoop (need : ℚ) : List ℚ → TokenBucket → Option TokenBucket
  | [], b =>
    if b.tokens < need then none else some { b with tokens := b.tokens - need }
  | t :: rest, b =>
    if b.tokens < need then consumeLoop need rest (refillAt b t)
    else some { b with tokens := b.tokens - need }

/-- `TokenBucket.consume(weight)`: refill once on entry at the current
time, then the wait-and-deduct loop. -/
def TokenBucket.consume (b : TokenBucket) (now : ℚ) (wakes : List ℚ)
    (weight : ℚ) : Option TokenBucket :=
  consumeLoop weight wakes (refillAt b now)

/-- `RateLimiter._buckets`, an insertion-ordered dictionary keyed by
the joined `"exchange:endpoint"` string. -/
structure RateLimiter where
  buckets : List (String × TokenBucket)

/-- `RateLimiter._key`. -/
def rlKey (exchange endpoint : String) : String := exchange ++ ":" ++ endpoint

/-- Dictionary read `self._buckets.get(key)`. -/
def getBucket (rl : RateLimiter) (k : String) : Option TokenBucket :=
  (rl.buckets.find? fun kv => kv.1 == k).map (·.2)

/-- Dictionary write `self._buckets[key] = b` (replace in place, or
append preserving insertion order). -/
def setBucket (rl : RateLimiter) (k : String) (b : TokenBucket) : RateLimiter :=
  if (rl.buckets.find? fun kv => kv.1 == k).isSome then
    { buckets := rl.buckets.map fun kv => if kv.1 == k then (k, b) else kv }
  else { buckets := rl.buckets ++ [(k, b)] }

/-- One `{"capacity": …, "refill": …}` entry of the admin config; a
missing field falls back to `conf.get`'s default (10 / 5.0). -/
structure BucketConf where
  capacity : Option ℤ
  refill : Option ℚ

/-- `RateLimiter.update(config)`: for every `(exchange, endpoint)` in
the config, install a freshly constructed bucket. -/
def RateLimiter.update (rl : RateLimiter)
    (config : List (String × List (String × BucketConf))) (now : ℚ) : RateLimiter :=
  config.foldl (fun acc ec =>
    ec.2.foldl (fun acc2 epc =>
      setBucket acc2 (rlKey ec.1 epc.1)
        (TokenBucket.init (epc.2.capacity.getD 10) (epc.2.refill.getD 5) now)) acc) rl

/-- All joined `"exchange:endpoint"` keys an admin config installs. -/
def configKeys (config : List (String × List (String × BucketConf))) : List String :=
  (config.map fun ec => ec.2.map fun epc => rlKey ec.1 epc.1).flatten

/-- The bucket-selection of `RateLimiter.allow`: the exact
`(exchange, endpoint)` bucket when present, else the `(exchange,
"global")` bucket, else `setdefault` a permissive `TokenBucket(1000,
1000.0)` under the global key.  Returns the chosen key and the
(possibly extended) limiter. -/
def RateLimiter.allowSelect (rl : RateLimiter) (exchange endpoint : String)
    (now : ℚ) : String × RateLimiter :=
  match getBucket rl (rlKey exchange endpoint) with
  | some _ => (rlKey exchange endpoint, rl)
  | none =>
    match getBucket rl (rlKey exchange "global") with
    | some _ => (rlKey exchange "global", rl)
    | none => (rlKey exchange "global",
        setBucket rl (rlKey exchange "global") (TokenBucket.init 1000 1000 now))

/-- `RateLimiter.allow(exchange, endpoint, weight)`: select the bucket
and run its consume loop, writing the consumed bucket back. -/
def RateLimiter.allow (rl : RateLimiter) (exchange endpoint : String)
    (weight : ℚ) (now : ℚ) (wakes : List ℚ) : Option RateLimiter :=
  let sel := rl.allowSelect exchange endpoint now
  match getBucket sel.2 sel.1 with
  | some b => (b.consume now wakes weight).map fun b2 => setBucket sel.2 sel.1 b2
  | none => none

/-! ## Theorems -/

/-- C1: on every poller tick, the persisted `stale` flag is 1 exactly
when one leg's age exceeds the stale threshold or the skew exceeds the
skew threshold, and a stale tick's emitted action is `"hold"`
regardless of the z value. -/
theorem stale_flag_iff_and_forces_hold (s : RollingZScore) (obs : TickObs)
    (enterZ exitZ : ℝ) (staleMsTh skewMsTh : ℤ) :
    ((pollTick s obs enterZ exitZ staleMsTh skewMsTh).stale = 1 ↔
      ((pollTick s obs enterZ exitZ staleMsTh skewMsTh).ageAMs > staleMsTh ∨
       (pollTick s obs enterZ exitZ staleMsTh skewMsTh).ageBMs > staleMsTh ∨
       (pollTick s obs enterZ exitZ staleMsTh skewMsTh).skewMs > skewMsTh)) ∧
    ((pollTick s obs enterZ exitZ staleMsTh skewMsTh).stale = 1 →
      (pollTick s obs enterZ exitZ staleMsTh skewMsTh).action = "hold") := by
  by_cases h : max obs.tsA obs.tsB - obs.tsA > staleMsTh ∨
      max obs.tsA obs.tsB - obs.tsB > staleMsTh ∨ |obs.tsA - obs.tsB| > skewMsTh
  · simp [pollTick, h]
  · simp [pollTick, h]

/-- Witness for C1 at the stale-override scenario (leg A 4000 ms old
against a 3000 ms threshold): the tick's action is forced to hold. -/
theorem stale_flag_iff_and_forces_hold_witness :
    (pollTick ⟨60, []⟩ ⟨100, 99, 0, 4000, 50, 60⟩ 2 (1/2) 3000 500).action = "hold" :=
  (stale_flag_iff_and_forces_hold ⟨60, []⟩ ⟨100, 99, 0, 4000, 50, 60⟩ 2 (1/2) 3000 500).2
    ((stale_flag_iff_and_forces_hold ⟨60, []⟩ ⟨100, 99, 0, 4000, 50, 60⟩ 2 (1/2) 3000 500).1.mpr
      (Or.inl (by norm_num [pollTick])))

/-- C6: the pre-stale action cascade — enter short at `z ≥ enter_z`,
else enter long at `z ≤ -enter_z`, else exit at `|z| ≤ exit_z`, else
hold — and the S1 happy tick: prices 100.0/99.5 with the window seeded
so the updated mean is 0.3 and std 0.1 gives z = 2.0 and, with
`enter_z = 2.0`, the action `"enter_short_A_long_B"`. -/
theorem action_cascade_and_happy_tick :
    (∀ z e x : ℝ,
      (z ≥ e → decideAction z e x = "enter_short_A_long_B") ∧
      (¬ z ≥ e → z ≤ -e → decideAction z e x = "enter_long_A_short_B") ∧
      (¬ z ≥ e → ¬ z ≤ -e → |z| ≤ x → decideAction z e x = "exit") ∧
      (¬ z ≥ e → ¬ z ≤ -e → ¬ |z| ≤ x → decideAction z e x = "hold")) ∧
    ((pollTick ⟨9, [1/10, 3/10, 3/10, 3/10, 3/10, 3/10, 3/10, 3/10]⟩
        ⟨100, 199/2, 1000, 1000, 10, 10⟩ 2 (1/2) 3000 500).z = 2 ∧
     (pollTick ⟨9, [1/10, 3/10, 3/10, 3/10, 3/10, 3/10, 3/10, 3/10]⟩
        ⟨100, 199/2, 1000, 1000, 10, 10⟩ 2 (1/2) 3000 500).action = "enter_short_A_long_B" ∧
     (pollTick ⟨9, [1/10, 3/10, 3/10, 3/10, 3/10, 3/10, 3/10, 3/10]⟩
        ⟨100, 199/2, 1000, 1000, 10, 10⟩ 2 (1/2) 3000 500).stale = 0) := by
  constructor
  · intro z e x
    exact ⟨fun h1 => by simp [decideAction, h1],
      fun h1 h2 => by simp [decideAction, h1, h2],
      fun h1 h2 h3 => by simp [decideAction, h1, h2, h3],
      fun h1 h2 h3 => by simp [decideAction, h1, h2, h3]⟩
  · have hbuf : dequeAppend 9 [1/10, 3/10, 3/10, 3/10, 3/10, 3/10, 3/10, 3/10]
        ((100 : ℚ) - 199/2) =
        [1/10, 3/10, 3/10, 3/10, 3/10, 3/10, 3/10, 3/10, 1/2] := by
      norm_num [dequeAppend]
    have hmean : listMean [1/10, 3/10, 3/10, 3/10, 3/10, 3/10, 3/10, 3/10, 1/2] = 3/10 := by
      norm_num [listMean]
    have hvar : sampleVar [1/10, 3/10, 3/10, 3/10, 3/10, 3/10, 3/10, 3/10, 1/2] = 1/100 := by
      norm_num [sampleVar, listMean]
    have hstd : Real.sqrt (max (((1 : ℚ)/100 : ℚ) : ℝ) 0) = 1/10 := by
      rw [max_eq_left (by norm_num)]
      rw [show (((1 : ℚ)/100 : ℚ) : ℝ) = (1/10 : ℝ) ^ 2 by norm_num]
      exact Real.sqrt_sq (by norm_num)
    have hz : (pollTick ⟨9, [1/10, 3/10, 3/10, 3/10, 3/10, 3/10, 3/10, 3/10]⟩
        ⟨100, 199/2, 1000, 1000, 10, 10⟩ 2 (1/2) 3000 500).z = 2 := by
      simp only [pollTick, RollingZScore.update, hbuf, hmean, hvar, hstd]
      norm_num [hstd]
    refine ⟨hz, ?_, by simp [pollTick]⟩
    have hact : (pollTick ⟨9, [1/10, 3/10, 3/10, 3/10, 3/10, 3/10, 3/10, 3/10]⟩
        ⟨100, 199/2, 1000, 1000, 10, 10⟩ 2 (1/2) 3000 500).action =
        decideAction (pollTick ⟨9, [1/10, 3/10, 3/10, 3/10, 3/10, 3/10, 3/10, 3/10]⟩
          ⟨100, 199/2, 1000, 1000, 10, 10⟩ 2 (1/2) 3000 500).z 2 (1/2) := by
      simp [pollTick]
    rw [hact, hz]
    simp [decideAction]

/-- Witness for C6's cascade implications at z = 2, enter_z = 2. -/
theorem action_cascade_witness :
    decideAction 2 2 (1/2) = "enter_short_A_long_B" :=
  (action_cascade_and_happy_tick.1 2 2 (1/2)).1 (by norm_num)

/-- The unbiased sample variance is non-negative once the window holds
more than one element. -/
theorem sampleVar_nonneg (l : List ℚ) (h : 1 < l.length) : 0 ≤ sampleVar l := by
  apply div_nonneg
  · apply List.sum_nonneg
    intro a ha
    obtain ⟨b, -, rfl⟩ := List.mem_map.mp ha
    positivity
  · have : (1 : ℚ) < l.length := by exact_mod_cast h
    linarith

/-- C2: `RollingZScore(W).update(x)` with `W > 1` appends to a FIFO
window of capacity W (evicting the oldest element when full); the
returned mean is the arithmetic mean of the window, the returned std is
`sqrt(Σ(xi − mean)² / (n − 1))` when `n > 1` and 0 when `n = 1`, and
the returned z is `(x − mean)/std` when `std > 0` and 0 otherwise. -/
theorem rolling_zscore_update_spec (s : RollingZScore) (x : ℚ)
    (hw : 1 < s.window) (hlen : s.buf.length ≤ s.window) :
    (s.update x).state.window = s.window ∧
    (s.update x).state.buf =
      (if s.buf.length = s.window then s.buf.tail ++ [x] else s.buf ++ [x]) ∧
    (s.update x).state.buf.length ≤ s.window ∧
    (s.update x).meanOut = listMean (s.update x).state.buf ∧
    (1 < (s.update x).state.buf.length →
      (s.update x).stdOut = Real.sqrt ((sampleVar (s.update x).state.buf : ℚ) : ℝ)) ∧
    ((s.update x).state.buf.length = 1 → (s.update x).stdOut = 0) ∧
    (0 < (s.update x).stdOut →
      (s.update x).z = ((x : ℚ) - (listMean (s.update x).state.buf : ℚ)) / (s.update x).stdOut) ∧
    (¬ 0 < (s.update x).stdOut → (s.update x).z = 0) := by
  have hbuf : dequeAppend s.window s.buf x =
      (if s.buf.length = s.window then s.buf.tail ++ [x] else s.buf ++ [x]) := by
    unfold dequeAppend
    by_cases hfull : s.buf.length = s.window
    · rw [if_pos hfull]
      cases hb : s.buf with
      | nil =>
        rw [hb] at hfull
        simp only [List.length_nil] at hfull
        omega
      | cons a as =>
        rw [hb] at hfull
        simp only [List.length_cons] at hfull
        have hlt : s.window < (a :: as ++ [x]).length := by
          simp only [List.length_cons, List.length_append, List.length_singleton, List.length_nil]
          omega
        show (if s.window < (a :: as ++ [x]).length
            then List.drop ((a :: as ++ [x]).length - s.window) (a :: as ++ [x])
            else a :: as ++ [x]) = (a :: as).tail ++ [x]
        rw [if_pos hlt]
        have hdrop : (a :: as ++ [x]).length - s.window = 1 := by
          simp only [List.length_cons, List.length_append, List.length_singleton, List.length_nil]
          omega
        rw [hdrop]
        simp
    · rw [if_neg hfull]
      have hnl : ¬ s.window < (s.buf ++ [x]).length := by
        simp only [List.length_append, List.length_singleton, List.length_nil, List.length_cons]
        omega
      rw [if_neg hnl]
  have hlen2 : (dequeAppend s.window s.buf x).length ≤ s.window := by
    rw [hbuf]
    by_cases hfull : s.buf.length = s.window
    · rw [if_pos hfull]
      cases hb : s.buf with
      | nil =>
        rw [hb] at hfull
        simp only [List.length_nil] at hfull
        omega
      | cons a as =>
        rw [hb] at hfull
        simp only [List.length_cons] at hfull
        simp only [List.tail_cons, List.length_append, List.length_singleton, List.length_nil, List.length_cons]
        omega
    · rw [if_neg hfull]
      simp only [List.length_append, List.length_singleton, List.length_nil, List.length_cons]
      omega
  refine ⟨rfl, ?_, ?_, rfl, ?_, ?_, ?_, ?_⟩
  · simpa only [RollingZScore.update] using hbuf
  · simpa only [RollingZScore.update] using hlen2
  · intro hn
    have hvpos : 0 ≤ sampleVar (s.update x).state.buf := sampleVar_nonneg _ hn
    simp only [RollingZScore.update] at hn hvpos ⊢
    rw [if_pos hn, max_eq_left (by exact_mod_cast hvpos)]
  · intro hn
    simp only [RollingZScore.update] at hn ⊢
    rw [if_neg (by omega)]
  · intro hpos
    simp only [RollingZScore.update] at hpos ⊢
    rw [if_pos hpos]
  · intro hpos
    simp only [RollingZScore.update] at hpos ⊢
    rw [if_neg hpos]

/-- Witness for C2: updating a fresh window of capacity 2 with the
value 7 yields buffer `[7]`, its mean, and std 0 (hence z 0). -/
theorem rolling_zscore_update_witness :
    (RollingZScore.update ⟨2, []⟩ 7).state.buf = [7] ∧
    (RollingZScore.update ⟨2, []⟩ 7).meanOut = listMean [7] ∧
    (RollingZScore.update ⟨2, []⟩ 7).stdOut = 0 := by
  have h := rolling_zscore_update_spec ⟨2, []⟩ 7 (by norm_num) (by norm_num)
  obtain ⟨-, hbuf, -, hmean, -, hstd1, -, -⟩ := h
  have hbuf2 : (RollingZScore.update ⟨2, []⟩ 7).state.buf = [7] := by simpa using hbuf
  exact ⟨hbuf2, by rw [hmean, hbuf2], hstd1 (by rw [hbuf2]; rfl)⟩

/-- C3: `estimate_reversion_times` returns `(None, None)` exactly when
the buffer is shorter than 10, the OLS denominator is 0, or the slope
`φ` is outside `(0, 0.9999)`; otherwise it returns `half_life_s =
(ln 2 / (−ln φ)) · (poll_ms / 1000)` and `t_exit_s = ln(|z| / exit_z) ·
half_life_s / ln 2`, the latter 0 when `exit_z ≤ 0` or `|z| ≤ exit_z`. -/
theorem estimate_reversion_times_spec (buf : List ℚ) (z e : ℝ) (p : ℤ) :
    estimate_reversion_times buf z e p =
      if buf.length < 10 ∨ olsDen buf = 0 ∨ phiOf buf ≤ 0 ∨ 9999 / 10000 ≤ phiOf buf
      then (none, none)
      else
        (some (Real.log 2 / (-Real.log ((phiOf buf : ℚ) : ℝ)) * ((p : ℝ) / 1000)),
         some (if e ≤ 0 ∨ |z| ≤ e then 0
           else Real.log (|z| / e) *
             (Real.log 2 / (-Real.log ((phiOf buf : ℚ) : ℝ)) * ((p : ℝ) / 1000)) /
             Real.log 2)) := by
  simp only [estimate_reversion_times]
  by_cases h1 : buf.length < 10
  · rw [if_pos h1, if_pos (Or.inl h1)]
  · rw [if_neg h1]
    by_cases h2 : olsDen buf = 0
    · have hphi : phiOf buf ≤ 0 := by rw [phiOf, h2, div_zero]
      rw [if_pos h2, if_pos (Or.inr (Or.inr (Or.inl hphi)))]
    · rw [if_neg h2]
      by_cases h3 : phiOf buf ≤ 0 ∨ 9999 / 10000 ≤ phiOf buf
      · have hbig : buf.length < 10 ∨ olsDen buf = 0 ∨
            phiOf buf ≤ 0 ∨ 9999 / 10000 ≤ phiOf buf := Or.inr (Or.inr h3)
        rw [if_pos h3, if_pos hbig]
      · have hnbig : ¬ (buf.length < 10 ∨ olsDen buf = 0 ∨
            phiOf buf ≤ 0 ∨ 9999 / 10000 ≤ phiOf buf) := by
          intro h
          rcases h with a | b | cd
          · exact h1 a
          · exact h2 b
          · exact h3 cd
        rw [if_neg h3, if_neg hnbig]
        simp only [Prod.mk.injEq, Option.some.injEq]
        refine ⟨trivial, ?_⟩
        by_cases h4 : e ≤ 0 ∨ |z| ≤ e
        · rw [if_pos h4, if_pos h4]
        · rw [if_neg h4, if_neg h4, div_div_eq_mul_div]

/-- C5 (amended): when both funding rates are known, the action is one
of the two enter patterns, and `countdown_ms` and `t_exit_s` are
available (present and nonzero), the advisory step emits `net_rate` =
short leg's rate minus the long leg's, the runner's own advisory
message (`adviceBeforeFunding` exactly when `t_exit_s <
time_to_funding_s`, else `adviceSpanFunding`), `net_funding_cycle_usd =
notional · net_rate`, and `expect_funding_next_usd` equal to that value
when `t_exit_s ≥ time_to_funding_s` and 0 otherwise. -/
theorem funding_advisory_spec (action : String) (a b : ℚ) (c : ℤ) (t : ℝ)
    (notional : ℚ) (hc : c ≠ 0) (ht : t ≠ 0)
    (hact : action = "enter_short_A_long_B" ∨ action = "enter_long_A_short_B") :
    (fundingAdvisory action (some a) (some b) (some c) (some t) notional).advice =
      some (if t < ((max 0 (truncDiv1000 c) : ℤ) : ℝ) then adviceBeforeFunding
        else adviceSpanFunding) ∧
    (fundingAdvisory action (some a) (some b) (some c) (some t) notional).netFundingCycleUsd =
      some (notional * (if action = "enter_short_A_long_B" then a - b else b - a)) ∧
    (fundingAdvisory action (some a) (some b) (some c) (some t) notional).expectFundingNextUsd =
      some (if ((max 0 (truncDiv1000 c) : ℤ) : ℝ) ≤ t
        then notional * (if action = "enter_short_A_long_B" then a - b else b - a)
        else 0) := by
  have hco : ¬ (c = 0 ∨ t = 0) := by
    rintro (h | h)
    · exact hc h
    · exact ht h
  rcases hact with h | h
  · subst h
    have hnr : netRateOf "enter_short_A_long_B" (some a) (some b) = some (a - b) := by
      simp [netRateOf]
    simp only [fundingAdvisory]
    rw [if_neg hco, hnr]
    refine ⟨rfl, ?_, ?_⟩ <;> simp
  · subst h
    have hnr : netRateOf "enter_long_A_short_B" (some a) (some b) = some (b - a) := by
      simp [netRateOf]
    simp only [fundingAdvisory]
    rw [if_neg hco, hnr]
    refine ⟨rfl, ?_, ?_⟩ <;> simp

/-- Witness for C5 (amended) at the S5 scenario (countdown 3600000 ms,
t_exit 600 s, rates 0.001/0, notional 1000): the before-funding message
and an expected next-cycle funding of 0. -/
theorem funding_advisory_spec_witness :
    (fundingAdvisory "enter_short_A_long_B" (some (1/1000)) (some 0)
      (some 3600000) (some 600) 1000).advice = some adviceBeforeFunding ∧
    (fundingAdvisory "enter_short_A_long_B" (some (1/1000)) (some 0)
      (some 3600000) (some 600) 1000).expectFundingNextUsd = some 0 := by
  have h := funding_advisory_spec "enter_short_A_long_B" (1/1000) 0 3600000 600 1000
    (by norm_num) (by norm_num) (Or.inl rfl)
  obtain ⟨ha, -, he⟩ := h
  have httf : max 0 (truncDiv1000 3600000) = (3600 : ℤ) := by norm_num [truncDiv1000]
  constructor
  · rw [ha, httf]
    norm_num
  · rw [he, httf]
    norm_num

/-- C5 counterexample: at the S5 inputs the emitted advisory is the
runner's Chinese-language message, not the English sentence the claim
asserts verbatim. -/
theorem funding_advisory_counterexample :
    (fundingAdvisory "enter_short_A_long_B" (some (1/1000)) (some 0)
      (some 3600000) (some 600) 1000).advice ≠
      some "convergence expected before next funding; funding avoidable" := by
  have hco : ¬ ((3600000 : ℤ) = 0 ∨ (600 : ℝ) = 0) := by norm_num
  have hnr : netRateOf "enter_short_A_long_B" (some (1/1000)) (some 0) =
      some (1/1000 - 0) := by simp [netRateOf]
  simp only [fundingAdvisory]
  rw [if_neg hco, hnr]
  have httf : max 0 (truncDiv1000 3600000) = (3600 : ℤ) := by norm_num [truncDiv1000]
  rw [httf]
  rw [if_pos (by norm_num : (600 : ℝ) < ((3600 : ℤ) : ℝ))]
  simp [adviceBeforeFunding]

/-- C7 (amended): `POST /api/ingest/spread` returns 400 exactly when a
required key is absent; when all eight are present with coercible
values it persists the converted sample, broadcasts the full payload to
every current subscriber of that pair, and returns ok — even when the
subscriber set is empty. -/
theorem ingest_spread_spec (st : PanelState) (payload : List (String × JVal)) :
    (ingest_spread st payload = .error 400 ↔
      ∃ k ∈ requiredKeys, jlookup payload k = none) ∧
    (∀ (pr : JVal) (ts : ℤ) (pa pb sp zv mv sv : ℚ),
      jlookup payload "pair" = some pr →
      (jlookup payload "ts_ms").bind asInt = some ts →
      (jlookup payload "price_a").bind asNum = some pa →
      (jlookup payload "price_b").bind asNum = some pb →
      (jlookup payload "spread").bind asNum = some sp →
      (jlookup payload "z").bind asNum = some zv →
      (jlookup payload "mean").bind asNum = some mv →
      (jlookup payload "std").bind asNum = some sv →
      ingest_spread st payload = .ok
        ⟨⟨st.stored ++ [⟨pr, ts, pa, pb, sp, zv, mv, sv⟩], st.subscribers⟩,
         payload, st.subscribers pr, "ok"⟩) := by
  constructor
  · cases hb : requiredKeys.any fun k => (jlookup payload k).isNone with
    | true =>
      constructor
      · intro _
        obtain ⟨k, hk, hn⟩ := List.any_eq_true.mp hb
        exact ⟨k, hk, Option.isNone_iff_eq_none.mp hn⟩
      · intro _
        unfold ingest_spread
        rw [if_pos hb]
    | false =>
      constructor
      · intro hres
        unfold ingest_spread at hres
        rw [if_neg (by simp [hb])] at hres
        split at hres <;> simp at hres
      · rintro ⟨k, hk, hn⟩
        have hcontra : (requiredKeys.any fun k2 => (jlookup payload k2).isNone) = true :=
          List.any_eq_true.mpr ⟨k, hk, by simp [hn]⟩
        rw [hb] at hcontra
        exact absurd hcontra (by simp)
  · intro pr ts pa pb sp zv mv sv h1 h2 h3 h4 h5 h6 h7 h8
    have e1 : (jlookup payload "pair").isNone = false := by rw [h1]; rfl
    have e2 : (jlookup payload "ts_ms").isNone = false := by
      cases hj : jlookup payload "ts_ms" with
      | none => rw [hj] at h2; simp at h2
      | some v => rfl
    have e3 : (jlookup payload "price_a").isNone = false := by
      cases hj : jlookup payload "price_a" with
      | none => rw [hj] at h3; simp at h3
      | some v => rfl
    have e4 : (jlookup payload "price_b").isNone = false := by
      cases hj : jlookup payload "price_b" with
      | none => rw [hj] at h4; simp at h4
      | some v => rfl
    have e5 : (jlookup payload "spread").isNone = false := by
      cases hj : jlookup payload "spread" with
      | none => rw [hj] at h5; simp at h5
      | some v => rfl
    have e6 : (jlookup payload "z").isNone = false := by
      cases hj : jlookup payload "z" with
      | none => rw [hj] at h6; simp at h6
      | some v => rfl
    have e7 : (jlookup payload "mean").isNone = false := by
      cases hj : jlookup payload "mean" with
      | none => rw [hj] at h7; simp at h7
      | some v => rfl
    have e8 : (jlookup payload "std").isNone = false := by
      cases hj : jlookup payload "std" with
      | none => rw [hj] at h8; simp at h8
      | some v => rfl
    have hany : (requiredKeys.any fun k => (jlookup payload k).isNone) = false := by
      simp [requiredKeys, e1, e2, e3, e4, e5, e6, e7, e8]
    unfold ingest_spread
    rw [if_neg (by simp [hany]), h1, h2, h3, h4, h5, h6, h7, h8]

/-- Witness for C7 (amended): a fully-populated numeric payload against
a state with no subscribers is persisted and answered ok, with an empty
broadcast recipient list. -/
theorem ingest_spread_spec_witness :
    ingest_spread { stored := [], subscribers := fun _ => [] }
      [("pair", .str "P"), ("ts_ms", .num 1000), ("price_a", .num 1),
       ("price_b", .num 2), ("spread", .num 3), ("z", .num 4),
       ("mean", .num 5), ("std", .num 6)] = .ok
      ⟨⟨[⟨.str "P", 1000, 1, 2, 3, 4, 5, 6⟩], fun _ => []⟩,
       [("pair", .str "P"), ("ts_ms", .num 1000), ("price_a", .num 1),
        ("price_b", .num 2), ("spread", .num 3), ("z", .num 4),
        ("mean", .num 5), ("std", .num 6)],
       [], "ok"⟩ := by
  have h := (ingest_spread_spec { stored := [], subscribers := fun _ => [] }
      [("pair", .str "P"), ("ts_ms", .num 1000), ("price_a", .num 1),
       ("price_b", .num 2), ("spread", .num 3), ("z", .num 4),
       ("mean", .num 5), ("std", .num 6)]).2
    (.str "P") 1000 1 2 3 4 5 6
    (by decide) (by decide) (by decide) (by decide)
    (by decide) (by decide) (by decide) (by decide)
  simpa using h

/-- C7 counterexample: a payload carrying every required key, with
`ts_ms` a non-numeric string, is answered with a 5xx (the coercion
raises), not persisted and not answered ok — so key presence alone does
not imply the success path. -/
theorem ingest_spread_counterexample :
    (requiredKeys.all fun k => (jlookup
      [("pair", .str "P"), ("ts_ms", .str "x"), ("price_a", .num 1),
       ("price_b", .num 2), ("spread", .num 3), ("z", .num 4),
       ("mean", .num 5), ("std", .num 6)] k).isSome) = true ∧
    ingest_spread { stored := [], subscribers := fun _ => [] }
      [("pair", .str "P"), ("ts_ms", .str "x"), ("price_a", .num 1),
       ("price_b", .num 2), ("spread", .num 3), ("z", .num 4),
       ("mean", .num 5), ("std", .num 6)] = .error 500 := by
  constructor
  · rfl
  · rfl

/-- C9 (amended): for each leg `GET /api/simulate` walks the
pattern-selected side of the book greedily from base qty
`notional/mid`, reports average exec and filled base from that walk,
slippage fraction `|avg − mid| / mid` when `avg > 0` (0 when nothing
fills), slippage and taker-fee USD lines proportional to notional, and
their sum as total cost; the S4 scenario (sell 1.5 base into bids
`[[100,1],[99,2]]`) fills 1@100 + 0.5@99 for avg 299/3 ≈ 99.667 and
slippage fraction 1/300 ≈ 0.00333. -/
theorem api_simulate_spec :
    (∀ (midA midB : ℚ) (bookA bookB : OrderBook) (takerA takerB notional : ℚ)
      (pattern : String),
      pattern = "enter_short_A_long_B" ∨ pattern = "enter_long_A_short_B" →
      ∃ r, api_simulate midA midB bookA bookB takerA takerB notional pattern = .ok r ∧
        r.avgA = (avg_exec_price (sideLevels bookA
          (if pattern = "enter_short_A_long_B" then "sell" else "buy")) (notional / midA)).1 ∧
        r.filledBaseA = (avg_exec_price (sideLevels bookA
          (if pattern = "enter_short_A_long_B" then "sell" else "buy")) (notional / midA)).2 ∧
        r.avgB = (avg_exec_price (sideLevels bookB
          (if pattern = "enter_short_A_long_B" then "buy" else "sell")) (notional / midB)).1 ∧
        r.filledBaseB = (avg_exec_price (sideLevels bookB
          (if pattern = "enter_short_A_long_B" then "buy" else "sell")) (notional / midB)).2 ∧
        (0 < r.avgA → r.slipAPct = |r.avgA - midA| / midA) ∧
        (¬ 0 < r.avgA → r.slipAPct = 0) ∧
        (0 < r.avgB → r.slipBPct = |r.avgB - midB| / midB) ∧
        (¬ 0 < r.avgB → r.slipBPct = 0) ∧
        r.slipAUsd = r.slipAPct * notional ∧
        r.slipBUsd = r.slipBPct * notional ∧
        r.feeAUsd = takerA * notional ∧
        r.feeBUsd = takerB * notional ∧
        r.totalCostUsd = r.slipAUsd + r.slipBUsd + r.feeAUsd + r.feeBUsd) ∧
    api_simulate 100 100 ⟨[(100, 1), (99, 2)], []⟩ ⟨[], []⟩ 0 0 150
      "enter_short_A_long_B" =
      .ok ⟨100, 100, 299/3, 0, 1/300, 0, 1/2, 0, 0, 0, 1/2, 3/2, 0⟩ := by
  constructor
  · intro midA midB bookA bookB takerA takerB notional pattern hp
    rcases hp with h | h <;> subst h
    · refine ⟨_, rfl, by simp, by simp, by simp, by simp, ?_, ?_, ?_, ?_,
        rfl, rfl, rfl, rfl, rfl⟩
      · intro h
        rw [if_pos h]
      · intro h
        rw [if_neg h]
      · intro h
        rw [if_pos h]
      · intro h
        rw [if_neg h]
    · refine ⟨_, rfl, by simp, by simp, by simp, by simp, ?_, ?_, ?_, ?_,
        rfl, rfl, rfl, rfl, rfl⟩
      · intro h
        rw [if_pos h]
      · intro h
        rw [if_neg h]
      · intro h
        rw [if_pos h]
      · intro h
        rw [if_neg h]
  · have hwalk : walkBook [(100, 1), (99, 2)] ((150 : ℚ) / 100) 0 0 = (299/2, 3/2) := by
      norm_num [walkBook, min_def]
    have hw : avg_exec_price [(100, 1), (99, 2)] ((150 : ℚ) / 100) = (299/3, 3/2) := by
      rw [avg_exec_price, hwalk]
      norm_num
    have hwB : avg_exec_price ([] : List (ℚ × ℚ)) ((150 : ℚ) / 100) = (0, 0) := by
      rw [avg_exec_price]
      norm_num [walkBook]
    simp [api_simulate, sideLevels, hw, hwB]
    have habs : |(299 : ℚ)/3 - 100| = 1/3 := by
      rw [show (299 : ℚ)/3 - 100 = -(1/3) by norm_num, abs_neg,
        abs_of_nonneg (by norm_num : (0:ℚ) ≤ 1/3)]
    rw [habs]
    norm_num

/-- Witness for C9 (amended) at the S4 inputs: the success outcome
exists and its cost lines follow the walked book. -/
theorem api_simulate_spec_witness :
    ∃ r, api_simulate 100 100 ⟨[(100, 1), (99, 2)], []⟩ ⟨[], []⟩ 0 0 150
        "enter_short_A_long_B" = .ok r ∧
      r.avgA = (avg_exec_price (sideLevels ⟨[(100, 1), (99, 2)], []⟩ "sell")
        ((150 : ℚ) / 100)).1 ∧
      r.totalCostUsd = r.slipAUsd + r.slipBUsd + r.feeAUsd + r.feeBUsd := by
  obtain ⟨r, hok, h1, -, -, -, -, -, -, -, -, -, -, -, htot⟩ :=
    api_simulate_spec.1 100 100 ⟨[(100, 1), (99, 2)], []⟩ ⟨[], []⟩ 0 0 150
      "enter_short_A_long_B" (Or.inl rfl)
  exact ⟨r, hok, by simpa using h1, htot⟩

/-- C9 counterexample: with an empty bid side on leg A nothing fills,
the code reports slippage fraction 0, while the claim's unguarded
formula `|avg − mid| / mid` evaluates to 1 — so the claim's slippage
equation does not hold on every input. -/
theorem api_simulate_counterexample :
    api_simulate 100 100 ⟨[], []⟩ ⟨[], []⟩ 0 0 150 "enter_short_A_long_B" =
      .ok ⟨100, 100, 0, 0, 0, 0, 0, 0, 0, 0, 0, 0, 0⟩ ∧
    ¬ ((0 : ℚ) = |(0 : ℚ) - 100| / 100) := by
  constructor
  · have hwB : avg_exec_price ([] : List (ℚ × ℚ)) ((150 : ℚ) / 100) = (0, 0) := by
      rw [avg_exec_price]
      norm_num [walkBook]
    simp [api_simulate, sideLevels, hwB]
  · norm_num

/-- C8: `RateLimiter.allow` consumes the `(exchange, endpoint)` bucket
when it exists, else the `(exchange, "global")` bucket, else a freshly
created permissive `(exchange, "global")` bucket with capacity 1000 and
refill 1000/s; and the consume loop never rejects — a completed call
means the bucket (after waiting through refills) held at least `weight`
tokens and exactly `weight` were deducted, while a still-waiting call
is one whose refills never reached `weight`. -/
theorem rate_limiter_allow_spec :
    (∀ (rl : RateLimiter) (e ep : String) (now : ℚ) (b : TokenBucket),
      getBucket rl (rlKey e ep) = some b →
      rl.allowSelect e ep now = (rlKey e ep, rl)) ∧
    (∀ (rl : RateLimiter) (e ep : String) (now : ℚ) (b : TokenBucket),
      getBucket rl (rlKey e ep) = none →
      getBucket rl (rlKey e "global") = some b →
      rl.allowSelect e ep now = (rlKey e "global", rl)) ∧
    (∀ (rl : RateLimiter) (e ep : String) (now : ℚ),
      getBucket rl (rlKey e ep) = none →
      getBucket rl (rlKey e "global") = none →
      rl.allowSelect e ep now =
        (rlKey e "global",
          setBucket rl (rlKey e "global") (TokenBucket.init 1000 1000 now)) ∧
      (TokenBucket.init 1000 1000 now).capacity = 1000 ∧
      (TokenBucket.init 1000 1000 now).refillRate = 1000 ∧
      (TokenBucket.init 1000 1000 now).tokens = 1000) ∧
    (∀ (need : ℚ) (wakes : List ℚ) (b b2 : TokenBucket),
      consumeLoop need wakes b = some b2 →
      ∃ pre, pre <+: wakes ∧
        need ≤ (List.foldl refillAt b pre).tokens ∧
        b2 = { List.foldl refillAt b pre with
                 tokens := (List.foldl refillAt b pre).tokens - need }) ∧
    (∀ (need : ℚ) (wakes : List ℚ) (b : TokenBucket),
      consumeLoop need wakes b = none →
      (List.foldl refillAt b wakes).tokens < need) := by
  refine ⟨?_, ?_, ?_, ?_, ?_⟩
  · intro rl e ep now b h
    simp only [RateLimiter.allowSelect, h]
  · intro rl e ep now b h1 h2
    simp only [RateLimiter.allowSelect, h1, h2]
  · intro rl e ep now h1 h2
    simp only [RateLimiter.allowSelect, h1, h2]
    exact ⟨trivial, rfl, rfl, rfl⟩
  · intro need wakes
    induction wakes with
    | nil =>
      intro b b2 h
      simp only [consumeLoop] at h
      by_cases hlt : b.tokens < need
      · rw [if_pos hlt] at h
        exact absurd h (by simp)
      · rw [if_neg hlt] at h
        refine ⟨[], List.nil_prefix, ?_, ?_⟩
        · simpa [List.foldl] using not_lt.mp hlt
        · simpa [List.foldl] using (Option.some.inj h).symm
    | cons t rest ih =>
      intro b b2 h
      simp only [consumeLoop] at h
      by_cases hlt : b.tokens < need
      · rw [if_pos hlt] at h
        obtain ⟨pre, hpre, hge, hb2⟩ := ih (refillAt b t) b2 h
        obtain ⟨s, hs⟩ := hpre
        exact ⟨t :: pre, ⟨s, by rw [← hs]; rfl⟩, hge, hb2⟩
      · rw [if_neg hlt] at h
        refine ⟨[], List.nil_prefix, ?_, ?_⟩
        · simpa [List.foldl] using not_lt.mp hlt
        · simpa [List.foldl] using (Option.some.inj h).symm
  · intro need wakes
    induction wakes with
    | nil =>
      intro b h
      simp only [consumeLoop] at h
      by_cases hlt : b.tokens < need
      · simpa [List.foldl] using hlt
      · rw [if_neg hlt] at h
        exact absurd h (by simp)
    | cons t rest ih =>
      intro b h
      simp only [consumeLoop] at h
      by_cases hlt : b.tokens < need
      · rw [if_pos hlt] at h
        simpa [List.foldl] using ih (refillAt b t) h
      · rw [if_neg hlt] at h
        exact absurd h (by simp)

/-- Witness for C8: the default-bucket creation on an empty limiter,
and one consume run (capacity 5, refill 5/s, 1 token, weight 5) that
waits through the wake at t = 1 and then deducts to 0 tokens. -/
theorem rate_limiter_allow_witness :
    (RateLimiter.allowSelect ⟨[]⟩ "aster" "depth" 0 =
      ("aster:global", setBucket ⟨[]⟩ "aster:global" (TokenBucket.init 1000 1000 0))) ∧
    ∃ pre, pre <+: [1] ∧
      (5 : ℚ) ≤ (List.foldl refillAt ⟨5, 5, 1, 0⟩ pre).tokens ∧
      (⟨5, 5, 0, 1⟩ : TokenBucket) = { List.foldl refillAt ⟨5, 5, 1, 0⟩ pre with
        tokens := (List.foldl refillAt ⟨5, 5, 1, 0⟩ pre).tokens - 5 } := by
  constructor
  · exact (rate_limiter_allow_spec.2.2.1 ⟨[]⟩ "aster" "depth" 0 rfl rfl).1
  · exact rate_limiter_allow_spec.2.2.2.1 5 [1] ⟨5, 5, 1, 0⟩ ⟨5, 5, 0, 1⟩
      (by norm_num [consumeLoop, refillAt, min_def])

/-- Replacing the entry for key `k` leaves `find?` at `k` pointing at
the replacement. -/
theorem find?_map_replace (l : List (String × TokenBucket)) (k : String)
    (b : TokenBucket) (h : (l.find? fun kv => kv.1 == k).isSome = true) :
    ((l.map fun kv => if kv.1 == k then (k, b) else kv).find? fun kv => kv.1 == k) =
      some (k, b) := by
  induction l with
  | nil => simp at h
  | cons hd tl ih =>
    by_cases hh : (hd.1 == k) = true
    · simp only [List.map_cons, if_pos hh]
      exact List.find?_cons_of_pos _ (by simp)
    · simp only [List.map_cons, if_neg hh]
      rw [@List.find?_cons_of_neg _ (fun kv => kv.1 == k) hd _ hh]
      rw [@List.find?_cons_of_neg _ (fun kv => kv.1 == k) hd _ hh] at h
      exact ih h

/-- Replacing the entry for key `k` does not affect `find?` at any
other key. -/
theorem find?_map_replace_other (l : List (String × TokenBucket)) (k k' : String)
    (b : TokenBucket) (hne : k ≠ k') :
    ((l.map fun kv => if kv.1 == k then (k, b) else kv).find? fun kv => kv.1 == k') =
      (l.find? fun kv => kv.1 == k') := by
  induction l with
  | nil => rfl
  | cons hd tl ih =>
    by_cases hh : (hd.1 == k) = true
    · have hdk : hd.1 = k := by simpa using hh
      simp only [List.map_cons, if_pos hh]
      rw [@List.find?_cons_of_neg _ (fun kv => kv.1 == k') (k, b) _ (by simp [hne]),
        @List.find?_cons_of_neg _ (fun kv => kv.1 == k') hd _ (by simp [hdk, hne])]
      exact ih
    · simp only [List.map_cons, if_neg hh]
      by_cases hh' : (hd.1 == k') = true
      · rw [@List.find?_cons_of_pos _ (fun kv => kv.1 == k') hd _ hh',
          @List.find?_cons_of_pos _ (fun kv => kv.1 == k') hd _ hh']
      · rw [@List.find?_cons_of_neg _ (fun kv => kv.1 == k') hd _ hh',
          @List.find?_cons_of_neg _ (fun kv => kv.1 == k') hd _ hh']
        exact ih

/-- A dictionary write is visible at its own key. -/
theorem getBucket_setBucket_same (rl : RateLimiter) (k : String) (b : TokenBucket) :
    getBucket (setBucket rl k b) k = some b := by
  unfold getBucket setBucket
  by_cases hf : ((rl.buckets.find? fun kv => kv.1 == k).isSome) = true
  · rw [if_pos hf]
    simp only [find?_map_replace rl.buckets k b hf]
    rfl
  · rw [if_neg hf]
    have hnone : (rl.buckets.find? fun kv => kv.1 == k) = none := by
      cases hcase : rl.buckets.find? fun kv => kv.1 == k
      · rfl
      · exact absurd (by rw [hcase]; rfl) hf
    simp only [List.find?_append, hnone, Option.none_or]
    rw [List.find?_cons_of_pos _ (by simp)]
    rfl

/-- A dictionary write is invisible at every other key. -/
theorem getBucket_setBucket_other (rl : RateLimiter) (k : String) (b : TokenBucket)
    (k' : String) (hne : k ≠ k') :
    getBucket (setBucket rl k b) k' = getBucket rl k' := by
  unfold getBucket setBucket
  by_cases hf : ((rl.buckets.find? fun kv => kv.1 == k).isSome) = true
  · rw [if_pos hf, find?_map_replace_other rl.buckets k k' b hne]
  · rw [if_neg hf]
    simp only [List.find?_append]
    rw [List.find?_cons_of_neg _ (by simp [hne]), List.find?_nil]
    cases hcase : rl.buckets.find? fun kv => kv.1 == k' <;> rfl

/-- Frame property of the inner (per-exchange) fold of
`RateLimiter.update`: keys it does not install are untouched. -/
theorem getBucket_innerFold_frame (exch : String) (now : ℚ)
    (eps : List (String × BucketConf)) :
    ∀ (rl : RateLimiter) (k : String), (∀ epc ∈ eps, rlKey exch epc.1 ≠ k) →
      getBucket (eps.foldl (fun acc2 epc => setBucket acc2 (rlKey exch epc.1)
        (TokenBucket.init (epc.2.capacity.getD 10) (epc.2.refill.getD 5) now)) rl) k =
      getBucket rl k := by
  induction eps with
  | nil =>
    intro rl k _
    rfl
  | cons hd tl ih =>
    intro rl k hno
    rw [List.foldl_cons, ih _ _ fun epc hm => hno epc (List.mem_cons_of_mem _ hm)]
    exact getBucket_setBucket_other _ _ _ _ (hno hd (List.mem_cons_self _ _))

/-- Hit property of the inner fold: with pairwise-distinct keys, every
installed key ends at its freshly constructed bucket. -/
theorem getBucket_innerFold_hit (exch : String) (now : ℚ)
    (eps : List (String × BucketConf)) :
    ∀ (rl : RateLimiter) (epc : String × BucketConf), epc ∈ eps →
      (eps.map fun e => rlKey exch e.1).Nodup →
      getBucket (eps.foldl (fun acc2 epc2 => setBucket acc2 (rlKey exch epc2.1)
        (TokenBucket.init (epc2.2.capacity.getD 10) (epc2.2.refill.getD 5) now)) rl)
        (rlKey exch epc.1) =
      some (TokenBucket.init (epc.2.capacity.getD 10) (epc.2.refill.getD 5) now) := by
  induction eps with
  | nil =>
    intro rl epc hm
    cases hm
  | cons hd tl ih =>
    intro rl epc hm hnd
    rw [List.foldl_cons]
    rcases List.mem_cons.mp hm with rfl | hm'
    · have hnotin : ∀ e ∈ tl, rlKey exch e.1 ≠ rlKey exch epc.1 := by
        intro e he heq
        exact (List.nodup_cons.mp hnd).1 (List.mem_map.mpr ⟨e, he, heq⟩)
      rw [getBucket_innerFold_frame exch now tl _ _ hnotin]
      exact getBucket_setBucket_same _ _ _
    · exact ih _ epc hm' (List.nodup_cons.mp hnd).2

/-- The keys of a config decompose head-and-tail. -/
theorem configKeys_cons (c : String × List (String × BucketConf))
    (cs : List (String × List (String × BucketConf))) :
    configKeys (c :: cs) = (c.2.map fun epc => rlKey c.1 epc.1) ++ configKeys cs := by
  simp [configKeys]

/-- One step of the outer fold of `RateLimiter.update`. -/
theorem update_cons (rl : RateLimiter) (c : String × List (String × BucketConf))
    (cs : List (String × List (String × BucketConf))) (now : ℚ) :
    RateLimiter.update rl (c :: cs) now =
      RateLimiter.update (c.2.foldl (fun acc2 epc => setBucket acc2 (rlKey c.1 epc.1)
        (TokenBucket.init (epc.2.capacity.getD 10) (epc.2.refill.getD 5) now)) rl)
        cs now := by
  simp [RateLimiter.update]

/-- Frame property of `RateLimiter.update`: a key no config entry maps
to keeps exactly its previous bucket. -/
theorem getBucket_update_frame (now : ℚ)
    (config : List (String × List (String × BucketConf))) :
    ∀ (rl : RateLimiter) (k : String), k ∉ configKeys config →
      getBucket (rl.update config now) k = getBucket rl k := by
  induction config with
  | nil =>
    intro rl k _
    rfl
  | cons c cs ih =>
    intro rl k hk
    rw [configKeys_cons, List.mem_append] at hk
    push_neg at hk
    rw [update_cons, ih _ _ hk.2]
    exact getBucket_innerFold_frame c.1 now c.2 rl k fun epc hm heq =>
      hk.1 (heq ▸ List.mem_map.mpr ⟨epc, hm, rfl⟩)

/-- C10: `RateLimiter.update(config)` installs, for every `(exchange,
endpoint)` in the config, a freshly constructed bucket whose token
count starts at its full new capacity, and leaves every bucket whose
key the config does not mention completely unchanged. -/
theorem rate_limiter_update_spec (rl : RateLimiter)
    (config : List (String × List (String × BucketConf))) (now : ℚ) :
    (∀ k, k ∉ configKeys config →
      getBucket (rl.update config now) k = getBucket rl k) ∧
    ((configKeys config).Nodup →
      ∀ ec ∈ config, ∀ epc ∈ ec.2,
        getBucket (rl.update config now) (rlKey ec.1 epc.1) =
          some (TokenBucket.init (epc.2.capacity.getD 10) (epc.2.refill.getD 5) now)) ∧
    (∀ (cap : ℤ) (ref : ℚ),
      (TokenBucket.init cap ref now).tokens = (cap : ℚ) ∧
      (TokenBucket.init cap ref now).capacity = cap ∧
      (TokenBucket.init cap ref now).refillRate = ref) := by
  refine ⟨fun k hk => getBucket_update_frame now config rl k hk, ?_,
    fun cap ref => ⟨rfl, rfl, rfl⟩⟩
  induction config generalizing rl with
  | nil =>
    intro _ ec hm
    cases hm
  | cons c cs ih =>
    intro hnd ec hm epc hepc
    rw [configKeys_cons, List.nodup_append] at hnd
    rw [update_cons]
    rcases List.mem_cons.mp hm with rfl | hm'
    · rw [getBucket_update_frame now cs _ _ fun hmem =>
        hnd.2.2 (List.mem_map.mpr ⟨epc, hepc, rfl⟩) hmem]
      exact getBucket_innerFold_hit ec.1 now ec.2 rl epc hepc hnd.1
    · exact ih _ hnd.2.1 ec hm' epc hepc

/-- Witness for C10: updating a limiter holding drained
`aster:global`/`lighter:global` buckets with a config that only remaps
`aster:global` to capacity 2 leaves `lighter:global` byte-identical and
installs a full fresh bucket at `aster:global`. -/
theorem rate_limiter_update_witness :
    getBucket (RateLimiter.update ⟨[("aster:global", ⟨20, 10, 3, 7⟩),
        ("lighter:global", ⟨20, 10, 5, 9⟩)]⟩
        [("aster", [("global", ⟨some 2, some 1⟩)])] 0) "lighter:global" =
      getBucket ⟨[("aster:global", ⟨20, 10, 3, 7⟩),
        ("lighter:global", ⟨20, 10, 5, 9⟩)]⟩ "lighter:global" ∧
    getBucket (RateLimiter.update ⟨[("aster:global", ⟨20, 10, 3, 7⟩),
        ("lighter:global", ⟨20, 10, 5, 9⟩)]⟩
        [("aster", [("global", ⟨some 2, some 1⟩)])] 0) (rlKey "aster" "global") =
      some (TokenBucket.init 2 1 0) := by
  have h := rate_limiter_update_spec ⟨[("aster:global", ⟨20, 10, 3, 7⟩),
      ("lighter:global", ⟨20, 10, 5, 9⟩)]⟩
    [("aster", [("global", ⟨some 2, some 1⟩)])] 0
  refine ⟨h.1 "lighter:global" (by decide), ?_⟩
  have h2 := h.2.1 (by decide) ("aster", [("global", ⟨some 2, some 1⟩)])
    (List.mem_cons_self _ _) ("global", ⟨some 2, some 1⟩) (List.mem_cons_self _ _)
  simpa using h2

/-- C4 (amended): each bin's reported percentiles are the elements of
the ascending-sorted durations at the clamped zero-based index
`round(p·(n−1))` (round half to even), all four are null when the
durations list is empty, and the single-entry synthetic series reports
samples = 1 with p50 = 3.0. -/
theorem bin_stats_percentiles_spec :
    (∀ p : ℚ, pct p [] = none) ∧
    (∀ (p : ℚ) (sorted : List ℚ), sorted ≠ [] →
      pct p sorted = sorted.get?
        (max 0 (min ((sorted.length : ℤ) - 1)
          (pyRound (p * ((sorted.length : ℚ) - 1))))).toNat) ∧
    (∀ (absz : List ℚ) (tms : List ℤ) (cds : List (Option ℤ)) (lo : ℚ)
      (hi : Option ℚ) (ez : ℚ) (s : BinStat),
      binStat absz tms cds lo hi ez = some s → s.samples = 0 →
      s.p25 = none ∧ s.median = none ∧ s.p75 = none ∧ s.p90 = none) ∧
    binStat [0, 2, 0] [0, 1000, 4000] [none, none, none] (3/2) (some (5/2)) (1/2) =
      some ⟨1, some 3, some 3, some 3, some 3, none⟩ := by
  refine ⟨fun p => rfl, ?_, ?_, ?_⟩
  · intro p sorted hne
    rw [pct, if_neg (by simpa [List.length_eq_zero] using hne)]
    rfl
  · intro absz tms cds lo hi ez s hb h0
    rw [binStat] at hb
    cases hscan : binScanAux absz tms cds lo hi ez (2 * absz.length + 2) 1 with
    | none =>
      rw [hscan] at hb
      simp at hb
    | some r =>
      rw [hscan] at hb
      simp only [Option.map_some'] at hb
      obtain rfl := Option.some.inj hb
      simp only at h0
      have hnil : sortAsc r.1 = [] := List.length_eq_zero.mp h0
      simp [hnil, pct]
  · have hscan : binScanAux [0, 2, 0] [0, 1000, 4000] [none, none, none]
        (3/2) (some (5/2)) (1/2) 8 1 = some ([3], []) := by
      norm_num [binScanAux, findExitFrom, scanExit, List.getD]
    rw [binStat, show 2 * ([0, 2, 0] : List ℚ).length + 2 = 8 by norm_num, hscan]
    simp only [Option.map_some']
    norm_num [sortAsc, insertAsc, pct, pctIndex, pyRound, qfloor]

/-- Witness for C4 (amended): the percentile formula applied to the
four-element duration list. -/
theorem bin_stats_percentiles_witness :
    pct (1/4) [1, 2, 3, 4] = [1, 2, 3, 4].get?
      (max 0 (min ((([1, 2, 3, 4] : List ℚ).length : ℤ) - 1)
        (pyRound ((1/4) * ((([1, 2, 3, 4] : List ℚ).length : ℚ) - 1))))).toNat :=
  bin_stats_percentiles_spec.2.1 (1/4) [1, 2, 3, 4] (by simp)

/-- C4 counterexample: the ascending series |z| = 0,2,0,2,… enters the
(1.5, ∞) bin four times with exit durations 1,2,3,4 s; the endpoint
reports p25 = 2 (and median 3), while the nearest-rank percentile of
the claim — the element at rank ⌈p·n⌉ — is 1 (respectively 2), so the
reported percentiles are not nearest-rank. -/
theorem bin_stats_counterexample :
    binStat [0, 2, 0, 2, 0, 2, 0, 2, 0]
        [0, 0, 1000, 2000, 4000, 5000, 8000, 9000, 13000]
        [none, none, none, none, none, none, none, none, none]
        (3/2) none (1/2) =
      some ⟨4, some 2, some 3, some 3, some 4, none⟩ ∧
    nearestRankPercentile (1/4) [1, 2, 3, 4] = some 1 ∧
    some (2 : ℚ) ≠ some (1 : ℚ) := by
  refine ⟨?_, ?_, by norm_num⟩
  · have hscan : binScanAux [0, 2, 0, 2, 0, 2, 0, 2, 0]
        [0, 0, 1000, 2000, 4000, 5000, 8000, 9000, 13000]
        [none, none, none, none, none, none, none, none, none]
        (3/2) none (1/2) 20 1 = some ([1, 2, 3, 4], []) := by
      norm_num [binScanAux, findExitFrom, scanExit, List.getD]
    rw [binStat, show 2 * ([0, 2, 0, 2, 0, 2, 0, 2, 0] : List ℚ).length + 2 = 20
      by norm_num, hscan]
    simp only [Option.map_some']
    norm_num [sortAsc, insertAsc, pct, pctIndex, pyRound, qfloor]
    exact ⟨rfl, rfl⟩
  · norm_num [nearestRankPercentile, qceil, qfloor]

end Arb
